import Mathlib

/-!
Verification development for the e-commerce ordering and payment backend.

This file gives a shallow embedding of the domain core of the repository
(`apps/products/models.py`, `apps/orders/models.py`, `apps/orders/serializers.py`,
`apps/products/serializers.py`, `apps/payments/models.py`) and proves or refutes
the specified properties of that core.

Modelling conventions:
* Python `Decimal` money amounts become `ℚ` (all Decimal arithmetic in the
  source is exact at the scales involved: sums, products, and a 5% tax rate).
* Python `int` quantities and stock counts become `Int`.
* Django rows become Lean structures; a queryset of rows becomes a `List`;
  the product table, which order items reference by id, becomes a total map
  `Nat → Product`.
* Methods that `raise` become `Except String` results; a returned `.error`
  models an exception propagating before any mutation is committed.
* `Model.save()` persistence is modelled by returning the updated value;
  the totals recomputation that `Order.save`/`Product.save` perform on every
  save is embedded in the corresponding Lean `save` functions.
* Timestamps are irrelevant to the claims except for `paid_at` being set,
  which is modelled as a `Bool` flag.
-/

/-! ## Product / stock ledger (`apps/products/models.py`, class `Product`) -/

/-- `Product.Status` choices: active, inactive, out_of_stock. -/
inductive ProductStatus where
  | active
  | inactive
  | out_of_stock
deriving DecidableEq, Repr

/-- A row of the `products` table; only the fields the domain logic reads. -/
structure Product where
  id : Nat
  price : ℚ
  stock : Int
  status : ProductStatus
deriving DecidableEq, Repr

/-- `Product.save`: the auto-update of `status` from `stock` that runs on
every save (`apps/products/models.py`, lines 288-299). -/
def Product.saveProduct (p : Product) : Product :=
  if p.stock = 0 ∧ p.status = .active then { p with status := .out_of_stock }
  else if p.stock > 0 ∧ p.status = .out_of_stock then { p with status := .active }
  else p

/-- `Product.is_in_stock`: `stock > 0 and status == ACTIVE`. -/
def Product.is_in_stock (p : Product) : Bool :=
  p.stock > 0 ∧ p.status = .active

/-- `Product.reduce_stock(quantity)` (lines 312-325): raise `ValueError` when
`quantity > stock`; otherwise decrement, force `out_of_stock` at zero, save. -/
def Product.reduce_stock (p : Product) (quantity : Int) : Except String Product :=
  if quantity > p.stock then
    .error ("Insufficient stock. Available: " ++ toString p.stock ++
      ", Requested: " ++ toString quantity)
  else
    let stockAfter := p.stock - quantity
    let p1 : Product :=
      if stockAfter = 0 then { p with stock := stockAfter, status := .out_of_stock }
      else { p with stock := stockAfter }
    .ok p1.saveProduct

/-- `Product.increase_stock(quantity)` (lines 327-334): increment, flip
`out_of_stock` back to `active` when stock becomes positive, save. -/
def Product.increase_stock (p : Product) (quantity : Int) : Product :=
  let stockAfter := p.stock + quantity
  let p1 : Product :=
    if stockAfter > 0 ∧ p.status = .out_of_stock then
      { p with stock := stockAfter, status := .active }
    else { p with stock := stockAfter }
  p1.saveProduct

/-! ## Orders (`apps/orders/models.py`) -/

/-- `Order.Status` choices. -/
inductive OStatus where
  | pending
  | paid
  | processing
  | shipped
  | delivered
  | canceled
deriving DecidableEq, Repr

/-- The stored string value of each status choice. -/
def OStatus.str : OStatus → String
  | .pending => "pending"
  | .paid => "paid"
  | .processing => "processing"
  | .shipped => "shipped"
  | .delivered => "delivered"
  | .canceled => "canceled"

/-- A row of `order_items`: product reference, quantity, snapshot unit price,
stored subtotal. -/
structure OrderItem where
  productId : Nat
  quantity : Int
  price : ℚ
  subtotal : ℚ
deriving DecidableEq, Repr

/-- `OrderItem.save` (lines 430-448): recompute `subtotal = quantity × price`
before persisting.  (The parent-order recomputation it also triggers is
applied at the call sites below, exactly where the source triggers it.) -/
def OrderItem.saveItem (i : OrderItem) : OrderItem :=
  { i with subtotal := (i.quantity : ℚ) * i.price }

/-- An `orders` row; the fields the pricing and lifecycle logic read. -/
structure Order where
  status : OStatus
  items : List OrderItem
  subtotal : ℚ
  tax : ℚ
  shipping_cost : ℚ
  discount : ℚ
  total_amount : ℚ
  paidAt : Bool
deriving DecidableEq, Repr

/-- The fixed 5% tax rate of `Order.calculate_totals`. -/
def taxRate : ℚ := 5 / 100

/-- `Order.calculate_totals` (lines 190-228): subtotal is the DB aggregate
`Σ quantity × price` over the order items (`or 0.00` when empty), tax is 5%
of it, and total = subtotal + tax + shipping − discount. -/
def Order.calculate_totals (o : Order) : Order :=
  let items_subtotal := (o.items.map (fun i => (i.quantity : ℚ) * i.price)).sum
  let tax := items_subtotal * taxRate
  { o with
    subtotal := items_subtotal
    tax := tax
    total_amount := items_subtotal + tax + o.shipping_cost - o.discount }

/-- `Order.save` (lines 156-166) for an already-persisted order: it calls
`calculate_totals` before writing. -/
def Order.save (o : Order) : Order :=
  o.calculate_totals

/-- `Order.add_item(product, quantity)` (lines 230-272): reject when the
product is not in stock or the quantity exceeds stock; `get_or_create` the
`(order, product)` row, incrementing the quantity of an existing row
(keeping its snapshot price) and appending a new row priced at the product
price otherwise; then recompute totals and save. -/
def Order.add_item (o : Order) (p : Product) (quantity : Int) :
    Except String Order :=
  if ¬ p.is_in_stock then
    .error ("Product " ++ toString p.id ++ " is not in stock")
  else if quantity > p.stock then
    .error ("Insufficient stock. Available: " ++ toString p.stock ++
      ", Requested: " ++ toString quantity)
  else
    match o.items.find? (fun i => i.productId = p.id) with
    | some _ =>
      let items := o.items.map fun i =>
        if i.productId = p.id then OrderItem.saveItem { i with quantity := i.quantity + quantity }
        else i
      .ok (Order.save (Order.calculate_totals { o with items := items }))
    | none =>
      let items := o.items ++
        [OrderItem.saveItem { productId := p.id, quantity := quantity, price := p.price, subtotal := 0 }]
      .ok (Order.save (Order.calculate_totals { o with items := items }))

/-- `Order.remove_item(product)` (lines 274-278): delete matching rows,
recompute totals, save. -/
def Order.remove_item (o : Order) (productId : Nat) : Order :=
  Order.save (Order.calculate_totals
    { o with items := o.items.filter (fun i => ¬ i.productId = productId) })

/-- `Order.update_item_quantity(product, quantity)` (lines 280-290):
non-positive quantity removes the item; otherwise the row must exist
(`OrderItem.objects.get` raises `DoesNotExist` if not), its quantity is set
and saved, and totals are recomputed. -/
def Order.update_item_quantity (o : Order) (productId : Nat) (quantity : Int) :
    Except String Order :=
  if quantity ≤ 0 then
    .ok (o.remove_item productId)
  else if o.items.any (fun i => i.productId = productId) then
    let items := o.items.map fun i =>
      if i.productId = productId then OrderItem.saveItem { i with quantity := quantity }
      else i
    .ok (Order.save (Order.calculate_totals { o with items := items }))
  else
    .error "OrderItem matching query does not exist"

/-- `OrderUpdateSerializer.update` (`apps/orders/serializers.py`, lines
203-213) with `shipping_cost`/`discount` in the validated data: set the
fields, recompute totals, save. -/
def Order.update_shipping_discount (o : Order) (shipping_cost discount : ℚ) : Order :=
  Order.save (Order.calculate_totals
    { o with shipping_cost := shipping_cost, discount := discount })

/-- `OrderCreateSerializer.create` (`apps/orders/serializers.py`, lines
153-189): create a pending order with the requested shipping cost and
discount and zero totals, create one `OrderItem` per requested
`(product, quantity)` priced at the product price in order (each item save
triggers a recompute-and-save of the order), then recompute totals and save. -/
def createOrder (shipping_cost discount : ℚ) (itemsData : List (Product × Int)) : Order :=
  let o0 : Order :=
    { status := .pending, items := [], subtotal := 0, tax := 0,
      shipping_cost := shipping_cost, discount := discount,
      total_amount := 0, paidAt := false }
  let o1 := itemsData.foldl
    (fun o pd =>
      let item := OrderItem.saveItem
        { productId := pd.1.id, quantity := pd.2, price := pd.1.price, subtotal := 0 }
      Order.save (Order.calculate_totals { o with items := o.items ++ [item] }))
    o0
  Order.save (Order.calculate_totals o1)

/-! ## Order lifecycle over the whole system state

Status transitions touch the order row, the products table (stock
reduction/restoration), the `order_status_history` table and, through
payments, the payment row.  `Sys` packages that state. -/

/-- A row of `order_status_history` (from, to, actor, notes). -/
structure HistoryRow where
  from_status : OStatus
  to_status : OStatus
  changed_by : Nat
  notes : String
deriving DecidableEq, Repr

/-- `Payment.Status` choices. -/
inductive PayStatus where
  | pending
  | processing
  | success
  | failed
  | refunded
deriving DecidableEq, Repr

/-- A `payments` row; the fields the lifecycle logic reads. -/
structure Payment where
  status : PayStatus
  completedAt : Bool
deriving DecidableEq, Repr

/-- The database state the order/payment lifecycle operates on: one order,
the product table (total map by product id), its history rows in insertion
order, and the order's payment row. -/
structure Sys where
  order : Order
  products : Nat → Product
  history : List HistoryRow
  payment : Payment

/-- Stock of product `pid` in a system state. -/
def Sys.stockAt (s : Sys) (pid : Nat) : Int :=
  (s.products pid).stock

/-- `Order._reduce_stock` (`apps/orders/models.py`, lines 306-323): for each
item in order, call `product.reduce_stock(quantity)`, swallowing (logging)
any `ValueError` and continuing. -/
def reduceStockForItems (items : List OrderItem) (products : Nat → Product) :
    Nat → Product :=
  items.foldl
    (fun ps it => fun pid =>
      if pid = it.productId then
        match (ps it.productId).reduce_stock it.quantity with
        | .ok p => p
        | .error _ => ps it.productId
      else ps pid)
    products

/-- `Order._restore_stock` (lines 338-345): for each item, call
`product.increase_stock(quantity)`. -/
def restoreStockForItems (items : List OrderItem) (products : Nat → Product) :
    Nat → Product :=
  items.foldl
    (fun ps it => fun pid =>
      if pid = it.productId then (ps it.productId).increase_stock it.quantity
      else ps pid)
    products

/-- `Order.mark_as_paid` (lines 292-304): only when status is pending, set
status to paid and `paid_at`, save (which recomputes totals), then reduce
stock for all items; otherwise do nothing. -/
def Sys.markAsPaid (s : Sys) : Sys :=
  if s.order.status = .pending then
    let o := Order.save { s.order with status := .paid, paidAt := true }
    { s with order := o, products := reduceStockForItems o.items s.products }
  else s

/-- `Order.cancel_order` (lines 325-336): unless delivered or already
canceled, set status to canceled and save; restore stock when the old status
was paid. -/
def Sys.cancelOrder (s : Sys) : Sys :=
  if s.order.status ≠ .delivered ∧ s.order.status ≠ .canceled then
    let old := s.order.status
    let o := Order.save { s.order with status := .canceled }
    let ps := if old = .paid then restoreStockForItems o.items s.products else s.products
    { s with order := o, products := ps }
  else s

/-- The `allowed_transitions` table of
`OrderStatusUpdateSerializer.validate_status`
(`apps/orders/serializers.py`, lines 222-242). -/
def allowed_transitions : OStatus → List OStatus
  | .pending => [.paid, .canceled]
  | .paid => [.processing, .canceled]
  | .processing => [.shipped, .canceled]
  | .shipped => [.delivered]
  | .delivered => []
  | .canceled => []

/-- The `ValidationError` message raised for a disallowed transition. -/
def invalidTransitionMsg (current target : OStatus) : String :=
  "Cannot change status from " ++ current.str ++ " to " ++ target.str ++ "."

/-- `OrderStatusUpdateSerializer`: `validate_status` followed by `save`
(`apps/orders/serializers.py`, lines 216-276).  Validation rejects any
target outside the `allowed_transitions` row for the current status, before
any mutation.  On success: create the history row (from = current status),
set the order status, set `paid_at` and reduce stock when the target is
paid, and save the order (recomputing totals). -/
def Sys.updateStatus (s : Sys) (target : OStatus) (actor : Nat) (notes : String) :
    Except String Sys :=
  if target ∈ allowed_transitions s.order.status then
    let row : HistoryRow :=
      { from_status := s.order.status, to_status := target,
        changed_by := actor, notes := notes }
    let o1 :=
      if target = .paid then { s.order with status := target, paidAt := true }
      else { s.order with status := target }
    let ps :=
      if target = .paid then reduceStockForItems o1.items s.products
      else s.products
    .ok { order := Order.save o1, products := ps,
          history := s.history ++ [row], payment := s.payment }
  else
    .error (invalidTransitionMsg s.order.status target)

/-- `Payment.mark_as_success` (`apps/payments/models.py`, lines 139-162):
only when the payment status is not already success, set it to success with
a completion timestamp, save, and call `order.mark_as_paid()`. -/
def Sys.markAsSuccess (s : Sys) : Sys :=
  if s.payment.status ≠ .success then
    Sys.markAsPaid
      { s with payment := { status := .success, completedAt := true } }
  else s

/-- `Order.is_paid` (`apps/orders/models.py`, lines 354-357):
`status != PENDING`. -/
def Order.is_paid (o : Order) : Bool :=
  ¬ o.status = .pending

/-! ## Category tree (`apps/products/models.py`, class `Category`, and
`apps/products/serializers.py`, `CategorySerializer.validate_parent`)

A category is modelled with its id, its `is_active` flag and its list of
children in the order the `children` queryset yields them. -/

/-- A category node: id, `is_active`, children in queryset order. -/
inductive Cat where
  | node : Nat → Bool → List Cat → Cat
deriving Repr

/-- The category id (Django model equality compares primary keys). -/
def Cat.cid : Cat → Nat
  | .node i _ _ => i

/-- The `is_active` flag. -/
def Cat.isActive : Cat → Bool
  | .node _ a _ => a

/-- The `children` queryset of a category. -/
def Cat.children : Cat → List Cat
  | .node _ _ cs => cs

/-- The inner `dfs` of `Category.get_descendants_dfs`
(`apps/products/models.py`, lines 122-138) run over a list of children:
`for child in children.filter(is_active=True): append child; dfs(child)`.
Inactive children are skipped entirely, subtrees included. -/
def dfsChildren : List Cat → List Cat
  | [] => []
  | .node i a kids :: cs =>
    (if a then Cat.node i a kids :: dfsChildren kids else []) ++ dfsChildren cs

/-- `Category.get_descendants_dfs`: the recursive DFS started at `self`
(`self` itself is not collected). -/
def Cat.get_descendants_dfs (c : Cat) : List Cat :=
  dfsChildren c.children

/-- The forest obtained by removing every inactive node together with its
whole subtree (the spec's reading of which descendants are visible). -/
def pruneActive : List Cat → List Cat
  | [] => []
  | .node i a kids :: cs =>
    if a then .node i a (pruneActive kids) :: pruneActive cs
    else pruneActive cs

/-- Pre-order flattening of a forest: each parent before its children,
siblings in list order. -/
def preorderF : List Cat → List Cat
  | [] => []
  | .node i a kids :: cs =>
    Cat.node i a kids :: (preorderF kids ++ preorderF cs)

/-- All true descendant ids of a category, active or not: the actual
ancestor/descendant relation of the stored tree. -/
def allDescendantIds : List Cat → List Nat
  | [] => []
  | .node i _ kids :: cs =>
    i :: (allDescendantIds kids ++ allDescendantIds cs)

/-- `CategorySerializer.validate_parent` (`apps/products/serializers.py`,
lines 72-85) for an existing category `instance` and a non-null proposed
parent `value`: reject when `value == instance` (model equality is pk
equality) or when `value` occurs in `instance.get_descendants_dfs()`;
otherwise accept, performing no mutation either way. -/
def validate_parent (inst value : Cat) : Except String Cat :=
  if value.cid = inst.cid then
    .error "Category cannot be its own parent."
  else if (inst.get_descendants_dfs).any (fun d => d.cid = value.cid) then
    .error "Cannot set descendant as parent."
  else
    .ok value

/-! ## Verified properties -/

/-- The recomputed subtotal: `Σ quantity × price` over a list of items. -/
def itemsSubtotal (items : List OrderItem) : ℚ :=
  (items.map (fun i => (i.quantity : ℚ) * i.price)).sum

/-- The pricing invariant of claim C1: subtotal, tax and total are exactly
the functions of the current item set and the shipping/discount fields that
`calculate_totals` computes. -/
def totalsInvariant (o : Order) : Prop :=
  o.subtotal = itemsSubtotal o.items ∧
  o.tax = o.subtotal * taxRate ∧
  o.total_amount = o.subtotal + o.tax + o.shipping_cost - o.discount

lemma totalsInvariant_calculate_totals (o : Order) :
    totalsInvariant o.calculate_totals :=
  ⟨rfl, rfl, rfl⟩

lemma totalsInvariant_save (o : Order) : totalsInvariant o.save :=
  totalsInvariant_calculate_totals o

/-- C1: after every mutating operation on an order — creating it with items,
`add_item`, `remove_item`, `update_item_quantity`, or editing
`shipping_cost`/`discount` — the recomputed fields satisfy
subtotal = Σ quantity × snapshot price over the current items,
tax = subtotal × 5%, and total_amount = subtotal + tax + shipping_cost −
discount; the fields are functions of the item set and the order-level
shipping/discount fields. -/
theorem C1_totals_invariant_after_every_mutation :
    (∀ (sc d : ℚ) (itemsData : List (Product × Int)),
      totalsInvariant (createOrder sc d itemsData)) ∧
    (∀ (o : Order) (p : Product) (q : Int) (o2 : Order),
      o.add_item p q = .ok o2 → totalsInvariant o2) ∧
    (∀ (o : Order) (pid : Nat), totalsInvariant (o.remove_item pid)) ∧
    (∀ (o : Order) (pid : Nat) (q : Int) (o2 : Order),
      o.update_item_quantity pid q = .ok o2 → totalsInvariant o2) ∧
    (∀ (o : Order) (sc d : ℚ), totalsInvariant (o.update_shipping_discount sc d)) := by
  refine ⟨?_, ?_, ?_, ?_, ?_⟩
  · intro sc d itemsData
    exact totalsInvariant_save _
  · intro o p q o2 h
    unfold Order.add_item at h
    split at h
    · exact Except.noConfusion h
    · split at h
      · exact Except.noConfusion h
      · split at h
        · injection h with h
          subst h
          exact totalsInvariant_save _
        · injection h with h
          subst h
          exact totalsInvariant_save _
  · intro o pid
    exact totalsInvariant_save _
  · intro o pid q o2 h
    unfold Order.update_item_quantity at h
    split at h
    · injection h with h
      subst h
      exact totalsInvariant_save _
    · split at h
      · injection h with h
        subst h
        exact totalsInvariant_save _
      · exact Except.noConfusion h
  · intro o sc d
    exact totalsInvariant_save _

/-- A fully active product with the given stock, at every id. -/
def stockProducts (st : Int) : Nat → Product :=
  fun i => { id := i, price := 10, stock := st, status := .active }

/-- An order with given status and items and all money fields zero. -/
def mkOrder (st : OStatus) (items : List OrderItem) : Order :=
  { status := st, items := items, subtotal := 0, tax := 0,
    shipping_cost := 0, discount := 0, total_amount := 0, paidAt := false }

/-- A system state with the given order status, items, uniform stock level
and payment status, and no history. -/
def mkSys (st : OStatus) (items : List OrderItem) (stock : Int)
    (pst : PayStatus) : Sys :=
  { order := mkOrder st items, products := stockProducts stock,
    history := [], payment := { status := pst, completedAt := false } }

/-- Concrete product for the C1 witness. -/
def w1prod : Product := { id := 1, price := 10, stock := 5, status := .active }

/-- Order created with 2 units of `w1prod` (subtotal 20, tax 1, total 21). -/
def w1order : Order := createOrder 0 0 [(w1prod, 2)]

/-- The C1 witness order after adding one more unit. -/
def w1order2 : Order := (w1order.add_item w1prod 1).toOption.getD w1order

/-- Witness for C1: a concrete `add_item` run satisfying the hypothesis. -/
theorem C1_totals_invariant_witness :
    w1order.add_item w1prod 1 = .ok w1order2 ∧ totalsInvariant w1order2 :=
  ⟨rfl, C1_totals_invariant_after_every_mutation.2.1 w1order w1prod 1 w1order2 rfl⟩

/-- C2: the status-update operation succeeds exactly on the edges of the
transition graph pending→{paid, canceled}, paid→{processing, canceled},
processing→{shipped, canceled}, shipped→{delivered}, with delivered and
canceled terminal; any other requested transition fails with the
InvalidTransition validation error before any mutation (the error result
carries no new state, so the order is unchanged).  In particular delivered
has no outgoing edges and pending→shipped is not an edge. -/
theorem C2_status_update_follows_transition_graph :
    (∀ (s : Sys) (t : OStatus) (a : Nat) (n : String),
      (s.updateStatus t a n).isOk = true ↔ t ∈ allowed_transitions s.order.status) ∧
    (∀ (s : Sys) (t : OStatus) (a : Nat) (n : String),
      t ∉ allowed_transitions s.order.status →
        s.updateStatus t a n = .error (invalidTransitionMsg s.order.status t)) ∧
    allowed_transitions .delivered = [] ∧
    .shipped ∉ allowed_transitions .pending := by
  refine ⟨?_, ?_, rfl, by decide⟩
  · intro s t a n
    unfold Sys.updateStatus
    split
    · next hmem => simp [Except.isOk, Except.toBool, hmem]
    · next hmem => simp [Except.isOk, Except.toBool, hmem]
  · intro s t a n hmem
    unfold Sys.updateStatus
    rw [if_neg hmem]

/-- Witness for C2: a delivered order rejects a transition to pending. -/
theorem C2_status_update_witness :
    (mkSys .delivered [] 5 .pending).updateStatus .pending 1 "x" =
      .error (invalidTransitionMsg .delivered .pending) :=
  C2_status_update_follows_transition_graph.2.1 (mkSys .delivered [] 5 .pending)
    .pending 1 "x" (by decide)

/-- System used to refute C3: a pending order with one item. -/
def c3sys : Sys :=
  mkSys .pending [{ productId := 1, quantity := 2, price := 10, subtotal := 20 }] 5 .pending

/-- Counterexample to C3: `Order.mark_as_paid` performs a successful
pending→paid transition but writes no `OrderStatusHistory` row at all
(the claim requires exactly one row on every successful transition through
any path, `mark_as_paid` included). -/
theorem C3_counterexample_mark_as_paid_writes_no_history :
    (Sys.markAsPaid c3sys).order.status = .paid ∧
    (Sys.markAsPaid c3sys).history = [] ∧
    c3sys.order.status = .pending :=
  ⟨rfl, rfl, rfl⟩

/-- C3 amended: only the status-update endpoint writes history.  A
successful run of the endpoint appends exactly one history row recording
(from_status = the previous status, to_status, actor, notes) and sets the
new status in the same call, while `mark_as_paid` and `cancel_order` leave
the history untouched (their status changes are unrecorded). -/
theorem C3_amended_history_written_only_by_status_endpoint :
    (∀ (s : Sys) (t : OStatus) (a : Nat) (n : String) (s2 : Sys),
      s.updateStatus t a n = .ok s2 →
        s2.history = s.history ++
          [{ from_status := s.order.status, to_status := t,
             changed_by := a, notes := n }] ∧
        s2.order.status = t) ∧
    (∀ s : Sys, (Sys.markAsPaid s).history = s.history) ∧
    (∀ s : Sys, (Sys.cancelOrder s).history = s.history) := by
  refine ⟨?_, ?_, ?_⟩
  · intro s t a n s2 h
    unfold Sys.updateStatus at h
    split at h
    · injection h with h
      subst h
      refine ⟨rfl, ?_⟩
      show (Order.save _).status = t
      unfold Order.save Order.calculate_totals
      split <;> rfl
    · exact Except.noConfusion h
  · intro s
    unfold Sys.markAsPaid
    split <;> rfl
  · intro s
    unfold Sys.cancelOrder
    split <;> rfl

/-- Pending system for the C3 witness. -/
def c3wsys : Sys := mkSys .pending [] 5 .pending

/-- Result of a successful endpoint transition on `c3wsys`. -/
def c3wres : Sys := (c3wsys.updateStatus .paid 7 "confirmed").toOption.getD c3wsys

/-- Witness for the amended C3: a concrete successful endpoint transition
appends exactly its one history row. -/
theorem C3_amended_history_witness :
    c3wsys.updateStatus .paid 7 "confirmed" = .ok c3wres ∧
    c3wres.history =
      [{ from_status := .pending, to_status := .paid, changed_by := 7, notes := "confirmed" }] ∧
    c3wres.order.status = .paid := by
  have h : c3wsys.updateStatus .paid 7 "confirmed" = .ok c3wres := rfl
  have h2 := C3_amended_history_written_only_by_status_endpoint.1
    c3wsys .paid 7 "confirmed" c3wres h
  exact ⟨h, by simpa [c3wsys, mkSys, mkOrder] using h2.1, h2.2⟩

/-- Stock is untouched by the status auto-update of `Product.save`. -/
lemma saveProduct_stock (p : Product) : p.saveProduct.stock = p.stock := by
  unfold Product.saveProduct
  split_ifs <;> rfl

/-- `increase_stock` adds exactly the given quantity to the stock. -/
lemma increase_stock_stock (p : Product) (q : Int) :
    (p.increase_stock q).stock = p.stock + q := by
  unfold Product.increase_stock
  rw [saveProduct_stock]
  split_ifs <;> rfl

/-- Total quantity, over a list of items, of the items for product `pid`. -/
def itemsQtyFor (items : List OrderItem) (pid : Nat) : Int :=
  ((items.filter (fun i => i.productId = pid)).map (fun i => i.quantity)).sum

/-- Unfolding `itemsQtyFor` over a cons cell. -/
lemma itemsQtyFor_cons (it : OrderItem) (items : List OrderItem) (pid : Nat) :
    itemsQtyFor (it :: items) pid =
      (if it.productId = pid then it.quantity else 0) + itemsQtyFor items pid := by
  unfold itemsQtyFor
  rw [List.filter_cons]
  by_cases h : it.productId = pid
  · simp [h]
  · simp [h]

/-- Effect of `_restore_stock` on the stock of a single product: each item
for that product adds its quantity. -/
lemma restore_stockAt (items : List OrderItem) (ps : Nat → Product) (pid : Nat) :
    (restoreStockForItems items ps pid).stock = (ps pid).stock + itemsQtyFor items pid := by
  induction items generalizing ps with
  | nil => simp [restoreStockForItems, itemsQtyFor]
  | cons it items ih =>
    have step : restoreStockForItems (it :: items) ps =
        restoreStockForItems items
          (fun pid2 => if pid2 = it.productId then
            (ps it.productId).increase_stock it.quantity else ps pid2) := rfl
    rw [step, ih, itemsQtyFor_cons]
    by_cases h : pid = it.productId
    · rw [if_pos h, if_pos h.symm, increase_stock_stock, h]
      ring
    · rw [if_neg h, if_neg (fun hc => h hc.symm)]
      ring

/-- System used to refute C4: an order in `processing` (a post-paid state)
holding 2 units of product 1, with current stock 3. -/
def c4sys : Sys :=
  mkSys .processing [{ productId := 1, quantity := 2, price := 10, subtotal := 20 }] 3 .success

/-- Counterexample to C4: canceling an order from `processing` (a state
later than `paid`) leaves the stock untouched — `cancel_order` restores
stock only when the old status is exactly `paid`, so the stock stays 3
instead of returning to the pre-payment level 5 the claim requires. -/
theorem C4_counterexample_cancel_from_processing_keeps_stock :
    c4sys.order.status = .processing ∧
    (Sys.cancelOrder c4sys).order.status = .canceled ∧
    c4sys.stockAt 1 = 3 ∧
    (Sys.cancelOrder c4sys).stockAt 1 = 3 :=
  ⟨rfl, rfl, rfl, rfl⟩

/-- C4 amended: for an order that is neither delivered nor canceled,
`cancel_order` sets the status to canceled; stock is restored (each item
adds its quantity back to its product via `increase_stock`) exactly when
the old status was `paid` — canceling from `processing` or `shipped` (or
`pending`) leaves every product untouched. -/
theorem C4_amended_cancel_restores_stock_only_from_paid :
    ∀ s : Sys, s.order.status ≠ .delivered → s.order.status ≠ .canceled →
      (Sys.cancelOrder s).order.status = .canceled ∧
      (s.order.status = .paid →
        ∀ pid, (Sys.cancelOrder s).stockAt pid =
          s.stockAt pid + itemsQtyFor s.order.items pid) ∧
      (s.order.status ≠ .paid →
        ∀ pid, (Sys.cancelOrder s).stockAt pid = s.stockAt pid) := by
  intro s h1 h2
  unfold Sys.cancelOrder
  rw [if_pos ⟨h1, h2⟩]
  refine ⟨rfl, ?_, ?_⟩
  · intro hp pid
    simp only [Sys.stockAt]
    rw [if_pos hp]
    exact restore_stockAt _ _ _
  · intro hp pid
    simp only [Sys.stockAt]
    rw [if_neg hp]

/-- A paid system for the C4 witness: 2 units of product 1, stock 3. -/
def c4wsys : Sys :=
  mkSys .paid [{ productId := 1, quantity := 2, price := 10, subtotal := 20 }] 3 .success

/-- Witness for the amended C4: canceling the concrete paid order restores
the stock of product 1 from 3 to 5. -/
theorem C4_amended_cancel_witness :
    (Sys.cancelOrder c4wsys).order.status = .canceled ∧
    (Sys.cancelOrder c4wsys).stockAt 1 =
      c4wsys.stockAt 1 + itemsQtyFor c4wsys.order.items 1 :=
  ⟨(C4_amended_cancel_restores_stock_only_from_paid c4wsys
      (by decide) (by decide)).1,
   (C4_amended_cancel_restores_stock_only_from_paid c4wsys
      (by decide) (by decide)).2.1 rfl 1⟩

/-- System used to refute the "only path" part of C5: a pending order with
2 units of product 1, stock 5, payment still pending. -/
def c5sys : Sys :=
  mkSys .pending [{ productId := 1, quantity := 2, price := 10, subtotal := 20 }] 5 .pending

/-- Result of driving `c5sys` to paid through the status-update endpoint. -/
def c5res : Sys := (c5sys.updateStatus .paid 1 "pay").toOption.getD c5sys

/-- Counterexample to C5: `mark_as_success` is not the only path that
triggers stock reduction — the status-update endpoint transition
pending→paid reduces the stock of product 1 from 5 to 3 while the payment
stays `pending` and `mark_as_success` is never called. -/
theorem C5_counterexample_status_endpoint_reduces_stock :
    c5sys.updateStatus .paid 1 "pay" = .ok c5res ∧
    c5sys.stockAt 1 = 5 ∧
    c5res.stockAt 1 = 3 ∧
    c5res.payment = c5sys.payment ∧
    c5sys.payment.status ≠ .success :=
  ⟨rfl, rfl, rfl, rfl, by decide⟩

/-- `mark_as_paid` never touches the payment row. -/
lemma markAsPaid_payment (s : Sys) : (Sys.markAsPaid s).payment = s.payment := by
  unfold Sys.markAsPaid
  split <;> rfl

/-- A call to `mark_as_success` with the payment already `success` is a
no-op on the whole system state. -/
lemma markAsSuccess_of_success {s : Sys} (h : s.payment.status = .success) :
    s.markAsSuccess = s := by
  unfold Sys.markAsSuccess
  rw [if_neg (by simp [h])]

/-- After any call to `mark_as_success` the payment status is `success`. -/
lemma markAsSuccess_payment_status (s : Sys) :
    s.markAsSuccess.payment.status = .success := by
  unfold Sys.markAsSuccess
  split
  · rw [markAsPaid_payment]
  · next h => simpa using h

/-- C5 amended: `mark_as_success` is idempotent — when the payment status is
already `success` the call is a no-op on the entire state (payment, order,
products, history), and calling it twice always yields the state of a
single call.  (The further conjunct of the original claim — that
`mark_as_success` is the *only* path triggering stock reduction — is
refuted by the counterexample: the status-update endpoint also reduces
stock on its pending→paid transition.) -/
theorem C5_amended_mark_as_success_idempotent :
    (∀ s : Sys, s.payment.status = .success → s.markAsSuccess = s) ∧
    (∀ s : Sys, s.markAsSuccess.markAsSuccess = s.markAsSuccess) := by
  refine ⟨fun s h => markAsSuccess_of_success h, fun s => ?_⟩
  exact markAsSuccess_of_success (markAsSuccess_payment_status s)

/-- A system whose payment is already successful, for the C5 witness. -/
def c5wsys : Sys :=
  mkSys .paid [{ productId := 1, quantity := 2, price := 10, subtotal := 20 }] 3 .success

/-- Witness for the amended C5: a second `mark_as_success` on a payment
already in `success` changes nothing. -/
theorem C5_amended_idempotent_witness :
    c5wsys.payment.status = .success ∧ c5wsys.markAsSuccess = c5wsys :=
  ⟨rfl, C5_amended_mark_as_success_idempotent.1 c5wsys rfl⟩

/-- Updating, in place, the items of one product preserves the filtered
sublist for that product (the update keeps the product id). -/
lemma filter_map_update (l : List OrderItem) (pid : Nat) (g : OrderItem → OrderItem)
    (hg : ∀ i, (g i).productId = i.productId) :
    ((l.map fun i => if i.productId = pid then g i else i).filter
        (fun i => i.productId = pid)) =
      (l.filter (fun i => i.productId = pid)).map g := by
  induction l with
  | nil => rfl
  | cons a l ih =>
    rw [List.map_cons, List.filter_cons, List.filter_cons]
    by_cases h : a.productId = pid
    · rw [if_pos h]
      simp only [hg, h, decide_True, if_true, List.map_cons, ih]
    · rw [if_neg h]
      simp [h, ih]

/-- Items are untouched by totals recomputation and save. -/
lemma save_calc_items (o : Order) :
    (Order.save (Order.calculate_totals o)).items = o.items := rfl

/-- C6: when an item for the product already exists on the order (unique by
the `(order, product)` constraint), `add_item` merges into it: afterwards
there is still exactly one row for the pair, its quantity is the old
quantity plus the added quantity, its captured unit price is the original
snapshot price (not the product's current price), and no row was added. -/
theorem C6_add_item_merges_existing_row :
    ∀ (o : Order) (p : Product) (q : Int) (i0 : OrderItem) (o2 : Order),
      o.items.filter (fun i => i.productId = p.id) = [i0] →
      o.add_item p q = .ok o2 →
      o2.items.filter (fun i => i.productId = p.id) =
        [OrderItem.saveItem { i0 with quantity := i0.quantity + q }] ∧
      o2.items.length = o.items.length := by
  intro o p q i0 o2 hfilter h
  unfold Order.add_item at h
  split at h
  · exact Except.noConfusion h
  · split at h
    · exact Except.noConfusion h
    · split at h
      · next it hfind =>
        injection h with h
        subst h
        constructor
        · rw [save_calc_items,
            filter_map_update o.items p.id
              (fun i => OrderItem.saveItem { i with quantity := i.quantity + q })
              (fun i => rfl),
            hfilter]
          rfl
        · rw [save_calc_items, List.length_map]
      · next hfind =>
        exfalso
        have hnil : o.items.filter (fun i => i.productId = p.id) = [] := by
          rw [List.filter_eq_nil_iff]
          intro a ha
          have := List.find?_eq_none.mp hfind a ha
          simpa using this
        rw [hnil] at hfilter
        exact List.noConfusion hfilter

/-- Order with one existing row for product 1 (snapshot price 10). -/
def w6item : OrderItem := { productId := 1, quantity := 2, price := 10, subtotal := 20 }

/-- Order holding `w6item`, for the C6 witness. -/
def w6order : Order := mkOrder .pending [w6item]

/-- The same product 1, now selling at price 99 with stock 5: the merge
must keep the snapshot price 10. -/
def w6prod : Product := { id := 1, price := 99, stock := 5, status := .active }

/-- Result of adding 3 more units of product 1 to `w6order`. -/
def w6res : Order := (w6order.add_item w6prod 3).toOption.getD w6order

/-- Witness for C6: the concrete merge keeps one row, quantity 5, price 10. -/
theorem C6_add_item_merges_witness :
    w6order.items.filter (fun i => i.productId = w6prod.id) = [w6item] ∧
    w6order.add_item w6prod 3 = .ok w6res ∧
    w6res.items.filter (fun i => i.productId = w6prod.id) =
      [OrderItem.saveItem { w6item with quantity := w6item.quantity + 3 }] ∧
    w6res.items.length = w6order.items.length := by
  have h1 : w6order.items.filter (fun i => i.productId = w6prod.id) = [w6item] := rfl
  have h2 : w6order.add_item w6prod 3 = .ok w6res := rfl
  have h3 := C6_add_item_merges_existing_row w6order w6prod 3 w6item w6res h1 h2
  exact ⟨h1, h2, h3.1, h3.2⟩

/-- C7: `reduce_stock(product, qty)` fails with the insufficient-stock error
exactly when `qty > stock` (the raise happens before any mutation, so the
product row is unchanged on failure); on success the stock is decremented
by `qty` and a resulting stock of 0 forces the status to `out_of_stock`. -/
theorem C7_reduce_stock_checks_and_decrements :
    (∀ (p : Product) (q : Int), q > p.stock →
      p.reduce_stock q = .error ("Insufficient stock. Available: " ++ toString p.stock ++
        ", Requested: " ++ toString q)) ∧
    (∀ (p : Product) (q : Int), q ≤ p.stock → (p.reduce_stock q).isOk = true) ∧
    (∀ (p p2 : Product) (q : Int), p.reduce_stock q = .ok p2 →
      q ≤ p.stock ∧ p2.stock = p.stock - q ∧
      (p2.stock = 0 → p2.status = .out_of_stock)) := by
  refine ⟨?_, ?_, ?_⟩
  · intro p q h
    unfold Product.reduce_stock
    rw [if_pos h]
  · intro p q h
    unfold Product.reduce_stock
    rw [if_neg (not_lt.mpr h)]
    rfl
  · intro p p2 q h
    unfold Product.reduce_stock at h
    split at h
    · exact Except.noConfusion h
    · next hle =>
      injection h with h
      subst h
      refine ⟨not_lt.mp hle, ?_, ?_⟩
      · rw [saveProduct_stock]
        split <;> rfl
      · intro hz
        rw [saveProduct_stock] at hz
        have hz2 : p.stock - q = 0 := by
          revert hz
          split <;> intro hz <;> exact hz
        rw [if_pos hz2]
        simp [Product.saveProduct, hz2]
  
/-- Product with stock 5 for the C7 witness. -/
def w7prod : Product := { id := 1, price := 10, stock := 5, status := .active }

/-- Result of successfully reducing `w7prod` by its whole stock. -/
def w7res : Product := (w7prod.reduce_stock 5).toOption.getD w7prod

/-- Witness for C7: requesting 7 of 5 fails with the insufficient-stock
error; reducing by exactly 5 succeeds, leaves 0, and forces out_of_stock. -/
theorem C7_reduce_stock_witness :
    w7prod.reduce_stock 7 = .error ("Insufficient stock. Available: " ++ toString w7prod.stock ++
      ", Requested: " ++ toString (7 : Int)) ∧
    w7prod.reduce_stock 5 = .ok w7res ∧
    (5 ≤ w7prod.stock ∧ w7res.stock = w7prod.stock - 5 ∧
      (w7res.stock = 0 → w7res.status = .out_of_stock)) ∧
    w7res.status = .out_of_stock := by
  have h2 : w7prod.reduce_stock 5 = .ok w7res := rfl
  have h3 := C7_reduce_stock_checks_and_decrements.2.2 w7prod w7res 5 h2
  exact ⟨C7_reduce_stock_checks_and_decrements.1 w7prod 7 (by decide), h2, h3, h3.2.2 rfl⟩

/-- The DFS over a child list returns exactly the pre-order flattening of
the forest with inactive subtrees pruned (compared by category id). -/
lemma dfsChildren_eq_pruned_preorder : ∀ cs : List Cat,
    (dfsChildren cs).map Cat.cid = (preorderF (pruneActive cs)).map Cat.cid := by
  intro cs
  induction cs using dfsChildren.induct with
  | case1 => simp [dfsChildren, pruneActive, preorderF]
  | case2 i a kids cs ih1 ih2 =>
    by_cases h : a = true
    · simp [dfsChildren, pruneActive, preorderF, Cat.cid, Cat.isActive, h, ih1, ih2]
    · simp at h
      simp [dfsChildren, pruneActive, preorderF, Cat.cid, Cat.isActive, h, ih2]

/-- Every category the DFS returns is active (inactive nodes, and therefore
their subtrees, are never visited). -/
lemma mem_dfsChildren_active : ∀ (cs : List Cat) (d : Cat),
    d ∈ dfsChildren cs → d.isActive = true := by
  intro cs
  induction cs using dfsChildren.induct with
  | case1 =>
    intro d h
    simp [dfsChildren] at h
  | case2 i a kids cs ih1 ih2 =>
    intro d h
    by_cases ha : a = true
    · rw [dfsChildren] at h
      rw [if_pos ha] at h
      rcases List.mem_append.mp h with h1 | h2
      · rcases List.mem_cons.mp h1 with h3 | h4
        · subst h3
          simpa [Cat.isActive] using ha
        · exact ih1 d h4
      · exact ih2 d h2
    · rw [dfsChildren] at h
      rw [if_neg ha] at h
      simp only [List.nil_append] at h
      exact ih2 d h

/-- The 3-level chain root(1) → A(2) → B(3), with A's activity a parameter. -/
def chainRoot (activeA : Bool) : Cat :=
  .node 1 true [.node 2 activeA [.node 3 true []]]

/-- C8: `get_descendants_dfs` returns exactly the active descendants in
pre-order — the pre-order flattening (parent before children, siblings in
declared order) of the tree with every inactive node and its whole subtree
removed — and every returned node is active.  On the 3-level chain
root→A→B it returns exactly [A, B] in that order, and deactivating A
removes both A and B from the result. -/
theorem C8_descendants_dfs_preorder_active :
    (∀ c : Cat, (c.get_descendants_dfs).map Cat.cid =
      (preorderF (pruneActive c.children)).map Cat.cid) ∧
    (∀ (c : Cat) (d : Cat), d ∈ c.get_descendants_dfs → d.isActive = true) ∧
    ((chainRoot true).get_descendants_dfs).map Cat.cid = [2, 3] ∧
    ((chainRoot false).get_descendants_dfs).map Cat.cid = [] := by
  refine ⟨?_, ?_, ?_, ?_⟩
  · intro c
    exact dfsChildren_eq_pruned_preorder c.children
  · intro c d h
    exact mem_dfsChildren_active c.children d h
  · simp [chainRoot, Cat.get_descendants_dfs, Cat.children, dfsChildren, Cat.cid]
  · simp [chainRoot, Cat.get_descendants_dfs, Cat.children, dfsChildren, Cat.cid]

/-- Witness for C8: node A of the active chain is returned by the DFS and
is active, discharging the membership hypothesis concretely. -/
theorem C8_descendants_dfs_witness :
    Cat.node 2 true [Cat.node 3 true []] ∈ (chainRoot true).get_descendants_dfs ∧
    (Cat.node 2 true [Cat.node 3 true []]).isActive = true :=
  ⟨by simp [chainRoot, Cat.get_descendants_dfs, Cat.children, dfsChildren],
   C8_descendants_dfs_preorder_active.2.1 (chainRoot true) (Cat.node 2 true [Cat.node 3 true []])
     (by simp [chainRoot, Cat.get_descendants_dfs, Cat.children, dfsChildren])⟩

/-- The inactive child used to refute the cycle check of C9. -/
def c9child : Cat := .node 2 false []

/-- A category whose only child is inactive. -/
def c9cat : Cat := .node 1 true [c9child]

/-- C9 is a code bug: `validate_parent` checks the proposed parent against
`get_descendants_dfs`, which skips inactive nodes, so reparenting category 1
under its own inactive child category 2 is accepted (`.ok`) even though 2
is a true descendant of 1 — the accepted mutation `parent(1) := 2` creates
the cycle 1 → 2 → 1 that the claim (and the spec invariant) forbid. -/
theorem C9_cycle_check_accepts_inactive_descendant :
    (validate_parent c9cat c9child).isOk = true ∧
    c9child.cid ∈ allDescendantIds c9cat.children ∧
    (c9cat.get_descendants_dfs).map Cat.cid = [] := by
  refine ⟨?_, ?_, ?_⟩
  · simp [validate_parent, Cat.get_descendants_dfs, Cat.children, dfsChildren,
      c9cat, c9child, Cat.cid, Except.isOk, Except.toBool]
  · simp [allDescendantIds, c9cat, c9child, Cat.cid, Cat.children]
  · simp [Cat.get_descendants_dfs, Cat.children, dfsChildren, c9cat, c9child, Cat.cid]

/-- A pending system for the C10 instance. -/
def c10sys : Sys := mkSys .pending [] 5 .pending

/-- C10: `is_paid` returns true exactly when the order status is not
pending; in particular an order canceled directly from pending (never
actually paid) reports `is_paid = true`. -/
theorem C10_is_paid_iff_not_pending :
    (∀ o : Order, o.is_paid = true ↔ o.status ≠ .pending) ∧
    c10sys.order.status = .pending ∧
    (Sys.cancelOrder c10sys).order.status = .canceled ∧
    (Sys.cancelOrder c10sys).order.is_paid = true := by
  refine ⟨?_, rfl, rfl, rfl⟩
  intro o
  simp [Order.is_paid]
